import Mathlib

/-!
Verification of `get_octopart_products.py`, a sitemap scraper.

The script fetches an XML sitemap index with a visible browser, parses the
sub-sitemap URLs out of its `<loc>` tags, fetches every sub-sitemap with a
headless browser through a thread pool of `MAX_WORKERS` workers, accumulates
all product URLs from the sub-sitemaps into a Python `set`, and finally writes
the sorted, deduplicated URLs to a text file, one URL per line.

The shallow embedding below models:
  * the browser (undetected_chromedriver) as an oracle `Browser` mapping a
    URL and a headless flag to an optional page source (`none` = the fetch
    raised an exception, e.g. a timeout);
  * BeautifulSoup's `find_all('loc')` text extraction as a concrete scanner
    `find_all_loc` returning the texts between `<loc>` and `</loc>` pairs in
    document order;
  * the Python `set` as a duplicate-free list maintained by `setAdd`;
  * Python's `sorted` as `List.insertionSort (· ≤ ·)` (both orders are
    lexicographic on code points);
  * the main block as a pure function `runMain` from the browser oracle to
    the list of fetches issued and the optionally written output file.
-/

namespace Octopart

/-! ### Modelling BeautifulSoup's loc-tag extraction -/

/-- Does `pat` occur at the head of `s`? -/
def headMatches : List Char → List Char → Bool
  | [], _ => true
  | _ :: _, [] => false
  | p :: ps, c :: cs => p == c && headMatches ps cs

/-- Find the first occurrence of `pat` in `s`; return the characters before
the occurrence and the characters after it. -/
def findPat (pat : List Char) : List Char → Option (List Char × List Char)
  | [] => none
  | c :: cs =>
    if headMatches pat (c :: cs) then some ([], (c :: cs).drop pat.length)
    else
      match findPat pat cs with
      | some (pre, post) => some (c :: pre, post)
      | none => none

/-- Fuelled scanner: repeatedly find an `<loc>` opening tag, take the text up
to the matching `</loc>`, and continue after it. -/
def extractLocsAux : Nat → List Char → List String
  | 0, _ => []
  | fuel + 1, s =>
    match findPat "<loc>".toList s with
    | none => []
    | some (_, afterOpen) =>
      match findPat "</loc>".toList afterOpen with
      | none => []
      | some (txt, rest) => String.mk txt :: extractLocsAux fuel rest

/-- Modelled from the spec: BeautifulSoup's `soup.find_all('loc')` followed by
taking `tag.text` of every tag — the text content of each `<loc>` element of
the document, one list entry per element, in document order.  (The library
itself is third-party code, not part of this repository.)  The fuel
`s.length + 1` is an upper bound on the number of `<loc>` elements. -/
def find_all_loc (s : String) : List String :=
  extractLocsAux (s.length + 1) s.toList

/-! ### Configuration constants (lines 20-24 of the script) -/

def SITEMAP_INDEX_URL : String := "https://octopart.com/product-sitemap-index.xml"

def OUTPUT_FILE : String := "octopart_product_urls.txt"

/-- Number of concurrent browsers to run. -/
def MAX_WORKERS : Nat := 8

/-! ### fetch_page_with_uc -/

/-- The Chrome options built by `fetch_page_with_uc`: `--headless` is added
exactly when `headless_mode` is true. -/
def chromeOptions (headless_mode : Bool) : List String :=
  if headless_mode then ["--headless"] else []

/-- The browser oracle: what driving Chrome at a URL (with or without
`--headless`) yields.  `none` models any exception during
`uc.Chrome` / `driver.get` / the 60-second wait for a `<loc>` tag —
the `except Exception: return None` branch of `fetch_page_with_uc`. -/
structure Browser where
  pageResult : String → Bool → Option String

/-- Embedding of `fetch_page_with_uc(url, headless_mode)`: returns the page
source, or `None` when any exception (timeout included) occurs. -/
def fetch_page_with_uc (b : Browser) (url : String) (headless_mode : Bool) : Option String :=
  b.pageResult url headless_mode

/-! ### parse_urls_from_sitemap_content -/

/-- Python truthiness of an `Optional[str]`: `None` and the empty string are
falsy. -/
def truthy : Option String → Bool
  | none => false
  | some s => !s.isEmpty

/-- Embedding of `parse_urls_from_sitemap_content(page_content)`: on falsy
input (`None` or `""`) return `[]` without parsing; otherwise return the
texts of all `<loc>` tags.  The `try/except` around BeautifulSoup is
modelled by `find_all_loc` being a total function. -/
def parse_urls_from_sitemap_content (page_content : Option String) : List String :=
  match page_content with
  | none => []
  | some s => if s.isEmpty then [] else find_all_loc s

/-! ### String ordering (Python's `sorted` compares strings lexicographically
by code point; `charListLe` is a structural boolean version of that order,
proved below to agree with Mathlib's linear order on `String`) -/

/-- Boolean lexicographic comparison of character lists. -/
def charListLe : List Char → List Char → Bool
  | [], _ => true
  | _ :: _, [] => false
  | c :: cs, d :: ds =>
    if c < d then true
    else if d < c then false
    else charListLe cs ds

/-- The order in which Python's `sorted` arranges the URL strings. -/
def urlLe (a b : String) : Prop := charListLe a.data b.data = true

instance : DecidableRel urlLe := fun a b =>
  inferInstanceAs (Decidable (charListLe a.data b.data = true))

/-! ### The accumulating set (`all_product_urls`) -/

/-- Adding one element to the Python set, represented as a duplicate-free
list. -/
def setAdd (s : List String) (x : String) : List String :=
  if x ∈ s then s else s ++ [x]

/-- Embedding of `all_product_urls.update(urls_from_sitemap)`. -/
def setUpdate (s : List String) (urls : List String) : List String :=
  urls.foldl setAdd s

/-- The Step-2 loop body applied over the per-task parse results: update the
set with every non-empty list of URLs (`if urls_from_sitemap:` guard). -/
def accumulate (results : List (List String)) : List String :=
  results.foldl (fun acc urls => if urls.isEmpty then acc else setUpdate acc urls) []

/-- Step 3's `sorted(list(all_product_urls))` applied to the accumulated
per-task results. -/
def sortedUrls (results : List (List String)) : List String :=
  List.insertionSort urlLe (accumulate results)

/-- The text written to the output file: each URL followed by a single
newline (`f.write(url + '\n')` in a loop). -/
def outputText (lines : List String) : String :=
  String.join (lines.map (fun url => url ++ "\n"))

/-! ### The main block -/

/-- Observable outcome of one run of the script's `__main__` block:
the page fetches issued, in issuance order, as (url, headless_mode) pairs,
and the lines written to `OUTPUT_FILE` (`none` when the script `exit()`s in
Step 1 and the file is never opened or written). -/
structure RunOutcome where
  fetches : List (String × Bool)
  written : Option (List String)

/-- The sitemap-index page content fetched in Step 1 (visible browser). -/
def index_page_content (b : Browser) : Option String :=
  fetch_page_with_uc b SITEMAP_INDEX_URL false

/-- The sub-sitemap URLs discovered in Step 1. -/
def sub_sitemaps (b : Browser) : List String :=
  parse_urls_from_sitemap_content (index_page_content b)

/-- The headless fetch tasks submitted to the thread pool in Step 2: one per
discovered sub-sitemap URL, in the order of the dict comprehension
`{executor.submit(fetch_page_with_uc, url, headless_mode=True): url for url in sub_sitemaps}`. -/
def subFetchTasks (subs : List String) : List (String × Bool) :=
  subs.map (fun u => (u, true))

/-- The per-task parse results of Step 2, in submission order.  The real loop
consumes them in `as_completed` order; the completion-order independence of
the final file is proved separately, so submission order is used here. -/
def taskResults (b : Browser) : List (List String) :=
  (sub_sitemaps b).map (fun u => parse_urls_from_sitemap_content (fetch_page_with_uc b u true))

/-- Embedding of the `__main__` block.  Step 1 fetches the index visibly and
exits on falsy content or an empty URL list; Step 2 submits one headless
fetch per discovered URL and accumulates parse results into the set; Step 3
sorts the set and writes it line by line. -/
def runMain (b : Browser) : RunOutcome :=
  if !truthy (index_page_content b) then
    ⟨[(SITEMAP_INDEX_URL, false)], none⟩
  else if (sub_sitemaps b).isEmpty then
    ⟨[(SITEMAP_INDEX_URL, false)], none⟩
  else
    ⟨(SITEMAP_INDEX_URL, false) :: subFetchTasks (sub_sitemaps b),
      some (sortedUrls (taskResults b))⟩

/-- The URLs fetched headlessly during a run, in issuance order, with
multiplicity: the first components of the fetch events whose headless flag
is set. -/
def headlessFetchUrls (r : RunOutcome) : List String :=
  (r.fetches.filter (fun t => t.2)).map Prod.fst

/-! ### The thread pool (`ThreadPoolExecutor(max_workers=MAX_WORKERS)`) -/

/-- State of the worker pool: tasks not yet started, tasks currently
executing, tasks completed. -/
structure PoolState where
  pending : List String
  running : List String
  finished : List String

/-- Modelled from the spec: `ThreadPoolExecutor` semantics — a bounded worker
pool.  A pending task may start only while fewer than `maxW` tasks are
running; any running task may finish. -/
inductive PoolStep (maxW : Nat) : PoolState → PoolState → Prop
  | start (u : String) (p₁ p₂ run fin : List String) :
      run.length < maxW →
      PoolStep maxW ⟨p₁ ++ u :: p₂, run, fin⟩ ⟨p₁ ++ p₂, u :: run, fin⟩
  | finish (u : String) (pend r₁ r₂ fin : List String) :
      PoolStep maxW ⟨pend, r₁ ++ u :: r₂, fin⟩ ⟨pend, r₁ ++ r₂, u :: fin⟩

/-- Reachability of a pool state from an initial state by pool steps. -/
inductive PoolReachable (maxW : Nat) (init : PoolState) : PoolState → Prop
  | refl : PoolReachable maxW init init
  | step {s s' : PoolState} : PoolReachable maxW init s → PoolStep maxW s s' →
      PoolReachable maxW init s'

/-- The pool state right after Step 2 submits all sub-sitemap fetch tasks. -/
def initPool (subs : List String) : PoolState :=
  ⟨subs, [], []⟩

/-! ### Concrete browser oracles used to exercise the model -/

/-- A browser for which the index fetch and both sub-sitemap fetches
succeed. -/
def okBrowser : Browser :=
  ⟨fun url _ =>
    if url = SITEMAP_INDEX_URL then
      some "<loc>https://o/s1.xml</loc><loc>https://o/s2.xml</loc>"
    else if url = "https://o/s1.xml" then
      some "<loc>https://o/p2</loc><loc>https://o/p1</loc>"
    else if url = "https://o/s2.xml" then
      some "<loc>https://o/p1</loc><loc>https://o/p3</loc>"
    else none⟩

/-- A browser for which every fetch raises (times out). -/
def failBrowser : Browser := ⟨fun _ _ => none⟩

/-- A browser for which the index fetch succeeds but every sub-sitemap fetch
raises. -/
def failSubBrowser : Browser :=
  ⟨fun url _ =>
    if url = SITEMAP_INDEX_URL then some "<loc>https://o/s1.xml</loc>"
    else none⟩

/-! ### Helper lemmas: the string order -/

theorem charListLe_iff : ∀ a b : List Char, charListLe a b = true ↔ ¬ List.Lex (· < ·) b a
  | [], b => by
    refine iff_of_true rfl (fun h => ?_)
    cases h
  | c :: cs, [] => by
    refine iff_of_false (by simp [charListLe]) (fun h => h List.Lex.nil)
  | c :: cs, d :: ds => by
    show (if c < d then true
      else if d < c then false
      else charListLe cs ds) = true ↔ _
    by_cases hcd : c < d
    · rw [if_pos hcd]
      refine iff_of_true rfl (fun h => ?_)
      cases h with
      | rel h₁ => exact lt_asymm hcd h₁
      | cons h₁ => exact lt_irrefl c hcd
    · by_cases hdc : d < c
      · rw [if_neg hcd, if_pos hdc]
        exact iff_of_false Bool.false_ne_true (fun h => h (List.Lex.rel hdc))
      · rw [if_neg hcd, if_neg hdc]
        have hda : d = c := le_antisymm (not_lt.mp hcd) (not_lt.mp hdc)
        subst hda
        rw [charListLe_iff cs ds]
        constructor
        · intro h hl
          cases hl with
          | rel h₁ => exact hdc h₁
          | cons h₃ => exact h h₃
        · intro h hl
          exact h (List.Lex.cons hl)

/-- `urlLe` is exactly `≤` on strings. -/
theorem urlLe_iff (a b : String) : urlLe a b ↔ a ≤ b :=
  (charListLe_iff a.data b.data).trans (not_congr String.lt_iff_toList_lt).symm

theorem urlLe_isTotal : IsTotal String urlLe :=
  ⟨fun a b => by
    rcases le_total a b with h | h
    · exact Or.inl ((urlLe_iff a b).mpr h)
    · exact Or.inr ((urlLe_iff b a).mpr h)⟩

theorem urlLe_isTrans : IsTrans String urlLe :=
  ⟨fun a b c hab hbc =>
    (urlLe_iff a c).mpr (le_trans ((urlLe_iff a b).mp hab) ((urlLe_iff b c).mp hbc))⟩

theorem urlLe_isAntisymm : IsAntisymm String urlLe :=
  ⟨fun a b hab hba => le_antisymm ((urlLe_iff a b).mp hab) ((urlLe_iff b a).mp hba)⟩

/-! ### Helper lemmas: parsing -/

theorem find_all_loc_empty : find_all_loc "" = [] := rfl

theorem parse_none : parse_urls_from_sitemap_content none = [] := rfl

theorem parse_some (s : String) :
    parse_urls_from_sitemap_content (some s) = find_all_loc s := by
  show (if s.isEmpty then [] else find_all_loc s) = find_all_loc s
  by_cases h : s.isEmpty
  · rw [if_pos h, (String.isEmpty_iff s).mp h]
    exact find_all_loc_empty.symm
  · rw [if_neg h]

/-! ### Helper lemmas: the accumulated set -/

theorem mem_setAdd (s : List String) (x y : String) :
    y ∈ setAdd s x ↔ y ∈ s ∨ y = x := by
  unfold setAdd
  by_cases h : x ∈ s
  · rw [if_pos h]
    constructor
    · exact Or.inl
    · rintro (hy | rfl)
      · exact hy
      · exact h
  · rw [if_neg h]
    simp [List.mem_append]

theorem nodup_setAdd (s : List String) (x : String) (hs : s.Nodup) :
    (setAdd s x).Nodup := by
  unfold setAdd
  by_cases h : x ∈ s
  · rwa [if_pos h]
  · rw [if_neg h]
    simpa [List.nodup_append] using ⟨hs, fun hx => h hx⟩

theorem mem_setUpdate : ∀ (urls : List String) (s : List String) (y : String),
    y ∈ setUpdate s urls ↔ y ∈ s ∨ y ∈ urls
  | [], s, y => by simp [setUpdate]
  | u :: us, s, y => by
    show y ∈ setUpdate (setAdd s u) us ↔ _
    rw [mem_setUpdate us (setAdd s u) y, mem_setAdd]
    simp only [List.mem_cons]
    tauto

theorem nodup_setUpdate : ∀ (urls : List String) (s : List String),
    s.Nodup → (setUpdate s urls).Nodup
  | [], _, hs => hs
  | u :: us, s, hs => nodup_setUpdate us (setAdd s u) (nodup_setAdd s u hs)

theorem accumulate_eq_foldl (results : List (List String)) :
    accumulate results = results.foldl setUpdate [] := by
  unfold accumulate
  congr 1
  funext acc urls
  by_cases h : urls.isEmpty
  · rw [if_pos h, List.isEmpty_iff.mp h]
    rfl
  · rw [if_neg h]

theorem mem_foldl_setUpdate : ∀ (results : List (List String)) (acc : List String) (y : String),
    y ∈ results.foldl setUpdate acc ↔ y ∈ acc ∨ ∃ l ∈ results, y ∈ l
  | [], acc, y => by simp
  | r :: rs, acc, y => by
    show y ∈ rs.foldl setUpdate (setUpdate acc r) ↔ _
    rw [mem_foldl_setUpdate rs (setUpdate acc r) y, mem_setUpdate]
    simp only [List.mem_cons]
    constructor
    · rintro ((h | h) | ⟨l, hl, hy⟩)
      · exact Or.inl h
      · exact Or.inr ⟨r, Or.inl rfl, h⟩
      · exact Or.inr ⟨l, Or.inr hl, hy⟩
    · rintro (h | ⟨l, rfl | hl, hy⟩)
      · exact Or.inl (Or.inl h)
      · exact Or.inl (Or.inr hy)
      · exact Or.inr ⟨l, hl, hy⟩

theorem mem_accumulate (results : List (List String)) (y : String) :
    y ∈ accumulate results ↔ ∃ l ∈ results, y ∈ l := by
  rw [accumulate_eq_foldl, mem_foldl_setUpdate]
  simp

theorem nodup_foldl_setUpdate : ∀ (results : List (List String)) (acc : List String),
    acc.Nodup → (results.foldl setUpdate acc).Nodup
  | [], _, h => h
  | r :: rs, acc, h => nodup_foldl_setUpdate rs (setUpdate acc r) (nodup_setUpdate r acc h)

theorem nodup_accumulate (results : List (List String)) : (accumulate results).Nodup := by
  rw [accumulate_eq_foldl]
  exact nodup_foldl_setUpdate results [] List.nodup_nil

/-! ### Helper lemmas: the sorted output -/

theorem sortedUrls_sorted (results : List (List String)) :
    (sortedUrls results).Sorted urlLe := by
  haveI := urlLe_isTotal
  haveI := urlLe_isTrans
  exact List.sorted_insertionSort urlLe (accumulate results)

theorem sortedUrls_perm (results : List (List String)) :
    List.Perm (sortedUrls results) (accumulate results) :=
  List.perm_insertionSort urlLe (accumulate results)

theorem sortedUrls_nodup (results : List (List String)) : (sortedUrls results).Nodup :=
  (sortedUrls_perm results).nodup_iff.mpr (nodup_accumulate results)

theorem mem_sortedUrls (results : List (List String)) (y : String) :
    y ∈ sortedUrls results ↔ ∃ l ∈ results, y ∈ l := by
  rw [(sortedUrls_perm results).mem_iff, mem_accumulate]

/-! ### Helper lemmas: the main block -/

theorem parse_falsy (o : Option String) (h : truthy o = false) :
    parse_urls_from_sitemap_content o = [] := by
  cases o with
  | none => rfl
  | some s =>
    cases hs : s.isEmpty with
    | true =>
      show (if s.isEmpty then [] else find_all_loc s) = []
      rw [if_pos hs]
    | false =>
      exfalso
      rw [show truthy (some s) = !s.isEmpty from rfl, hs] at h
      exact absurd h (by decide)

theorem mem_parse_fetch (o : Option String) (url : String) :
    url ∈ parse_urls_from_sitemap_content o ↔ ∃ c, o = some c ∧ url ∈ find_all_loc c := by
  cases o with
  | none => simp [parse_none]
  | some c => simp [parse_some]

theorem runMain_written_some (b : Browser) (lines : List String)
    (h : (runMain b).written = some lines) :
    lines = sortedUrls (taskResults b) := by
  unfold runMain at h
  split at h
  · exact nomatch h
  · split at h
    · exact nomatch h
    · exact (Option.some.inj h).symm

theorem headless_filter_subFetchTasks : ∀ subs : List String,
    ((subFetchTasks subs).filter (fun t => t.2)).map Prod.fst = subs
  | [] => rfl
  | u :: us => by
    show (((u, true) :: subFetchTasks us).filter (fun t => t.2)).map Prod.fst = u :: us
    rw [List.filter_cons_of_pos rfl]
    show u :: ((subFetchTasks us).filter (fun t => t.2)).map Prod.fst = u :: us
    rw [headless_filter_subFetchTasks us]

theorem countP_visible_subFetchTasks : ∀ subs : List String,
    (subFetchTasks subs).countP (fun t => !t.2) = 0
  | [] => rfl
  | u :: us => by
    show ((u, true) :: subFetchTasks us).countP (fun t => !t.2) = 0
    rw [List.countP_cons]
    simp [countP_visible_subFetchTasks us]

theorem snd_subFetchTasks (subs : List String) :
    ∀ t ∈ subFetchTasks subs, t.2 = true := by
  intro t ht
  rcases List.mem_map.mp ht with ⟨u, _, rfl⟩
  rfl

theorem truthy_false_of_not (b : Browser) (hcond : (!truthy (index_page_content b)) = true) :
    truthy (index_page_content b) = false := by
  cases htv : truthy (index_page_content b)
  · rfl
  · rw [htv] at hcond
    exact absurd hcond (by decide)

theorem runMain_headless_fetches (b : Browser) :
    headlessFetchUrls (runMain b) = sub_sitemaps b := by
  unfold runMain
  split
  · rename_i hcond
    show ([(SITEMAP_INDEX_URL, false)].filter (fun t => t.2)).map Prod.fst = _
    rw [show sub_sitemaps b = parse_urls_from_sitemap_content (index_page_content b) from rfl,
      parse_falsy _ (truthy_false_of_not b hcond)]
    rfl
  · split
    · rename_i hempty
      rw [List.isEmpty_iff.mp hempty]
      rfl
    · show (((SITEMAP_INDEX_URL, false) :: subFetchTasks (sub_sitemaps b)).filter
        (fun t => t.2)).map Prod.fst = _
      rw [List.filter_cons_of_neg (by decide)]
      exact headless_filter_subFetchTasks (sub_sitemaps b)

theorem runMain_fetches_cases (b : Browser) :
    (runMain b).fetches = [(SITEMAP_INDEX_URL, false)] ∨
    (runMain b).fetches = (SITEMAP_INDEX_URL, false) :: subFetchTasks (sub_sitemaps b) := by
  unfold runMain
  split
  · exact Or.inl rfl
  · split
    · exact Or.inl rfl
    · exact Or.inr rfl

/-! ### Claims -/

/-- C1: given the page contents returned by the fetch step, the set of URLs
written to the output file is exactly the union, over every sub-sitemap whose
fetch succeeded, of the texts of the `<loc>` tags in that sub-sitemap's
content: every such text appears in the file, and nothing else does. -/
theorem c1_written_urls_exact (b : Browser) (lines : List String)
    (h : (runMain b).written = some lines) (url : String) :
    url ∈ lines ↔
      ∃ u ∈ sub_sitemaps b, ∃ c,
        fetch_page_with_uc b u true = some c ∧ url ∈ find_all_loc c := by
  rw [runMain_written_some b lines h, mem_sortedUrls]
  unfold taskResults
  constructor
  · rintro ⟨l, hl, hy⟩
    rcases List.mem_map.mp hl with ⟨u, hu, rfl⟩
    rcases (mem_parse_fetch _ _).mp hy with ⟨c, hc, hyc⟩
    exact ⟨u, hu, c, hc, hyc⟩
  · rintro ⟨u, hu, c, hc, hy⟩
    exact ⟨parse_urls_from_sitemap_content (fetch_page_with_uc b u true),
      List.mem_map.mpr ⟨u, hu, rfl⟩, (mem_parse_fetch _ _).mpr ⟨c, hc, hy⟩⟩

theorem c1_witness :
    (runMain okBrowser).written = some ["https://o/p1", "https://o/p2", "https://o/p3"] ∧
    ("https://o/p1" ∈ ["https://o/p1", "https://o/p2", "https://o/p3"] ↔
      ∃ u ∈ sub_sitemaps okBrowser, ∃ c,
        fetch_page_with_uc okBrowser u true = some c ∧ "https://o/p1" ∈ find_all_loc c) :=
  ⟨by decide, c1_written_urls_exact okBrowser _ (by decide) "https://o/p1"⟩

/-- C2: the written lines are the accumulated URLs in strictly ascending
lexicographic order (hence each URL at most once); the file text is each
line's URL followed by a single newline. -/
theorem c2_output_sorted_nodup (b : Browser) (lines : List String)
    (h : (runMain b).written = some lines) :
    lines.Sorted (· < ·) ∧ lines.Nodup ∧
      (∀ u, u ∈ lines ↔ u ∈ accumulate (taskResults b)) ∧
      outputText lines = String.join (lines.map (fun url => url ++ "\n")) := by
  rw [runMain_written_some b lines h]
  refine ⟨?_, sortedUrls_nodup _, fun u => (sortedUrls_perm _).mem_iff, rfl⟩
  have hle : (sortedUrls (taskResults b)).Sorted (· ≤ ·) :=
    (sortedUrls_sorted (taskResults b)).imp (fun hab => (urlLe_iff _ _).mp hab)
  exact hle.lt_of_le (sortedUrls_nodup _)

theorem c2_witness :
    (runMain okBrowser).written = some ["https://o/p1", "https://o/p2", "https://o/p3"] ∧
    (["https://o/p1", "https://o/p2", "https://o/p3"].Sorted (· < ·) ∧
     ["https://o/p1", "https://o/p2", "https://o/p3"].Nodup ∧
     (∀ u, u ∈ ["https://o/p1", "https://o/p2", "https://o/p3"] ↔
        u ∈ accumulate (taskResults okBrowser)) ∧
     outputText ["https://o/p1", "https://o/p2", "https://o/p3"] =
       String.join (["https://o/p1", "https://o/p2", "https://o/p3"].map
         (fun url => url ++ "\n"))) :=
  ⟨by decide, c2_output_sorted_nodup okBrowser _ (by decide)⟩

/-- C3: a sub-sitemap whose fetch raises (any exception, timeout included)
contributes an empty URL list, and no retry happens: the headless fetches
issued are exactly the discovered sub-sitemap URLs, once per entry. -/
theorem c3_failure_empty_no_retry (b : Browser) (u : String)
    (h : fetch_page_with_uc b u true = none) :
    parse_urls_from_sitemap_content (fetch_page_with_uc b u true) = [] ∧
    (headlessFetchUrls (runMain b)).count u = (sub_sitemaps b).count u := by
  refine ⟨?_, by rw [runMain_headless_fetches]⟩
  rw [h]
  rfl

theorem c3_witness :
    fetch_page_with_uc failSubBrowser "https://o/s1.xml" true = none ∧
    (parse_urls_from_sitemap_content
        (fetch_page_with_uc failSubBrowser "https://o/s1.xml" true) = [] ∧
      (headlessFetchUrls (runMain failSubBrowser)).count "https://o/s1.xml" =
        (sub_sitemaps failSubBrowser).count "https://o/s1.xml") :=
  ⟨by decide, c3_failure_empty_no_retry failSubBrowser "https://o/s1.xml" (by decide)⟩

/-- C4: for every non-empty page content, the parser returns exactly the text
content of each `<loc>` element of the document, one entry per element, in
document order (`find_all_loc`). -/
theorem c4_parse_nonempty (s : String) (_h : s ≠ "") :
    parse_urls_from_sitemap_content (some s) = find_all_loc s :=
  parse_some s

theorem c4_witness :
    ("<loc>b</loc><loc>a</loc>" ≠ "" ∧
      parse_urls_from_sitemap_content (some "<loc>b</loc><loc>a</loc>") =
        find_all_loc "<loc>b</loc><loc>a</loc>") ∧
    find_all_loc "<loc>b</loc><loc>a</loc>" = ["b", "a"] :=
  ⟨⟨by decide, c4_parse_nonempty _ (by decide)⟩, by decide⟩

/-- C5: the sitemap index is fetched exactly once, with a visible browser,
before any sub-sitemap fetch; every sub-sitemap fetch is headless; and
`fetch_page_with_uc` adds `--headless` if and only if `headless_mode` is
true. -/
theorem c5_visible_index_first (b : Browser) :
    (runMain b).fetches.head? = some (SITEMAP_INDEX_URL, false) ∧
    (runMain b).fetches.countP (fun t => !t.2) = 1 ∧
    (∀ t ∈ (runMain b).fetches.tail, t.2 = true) ∧
    (∀ m : Bool, "--headless" ∈ chromeOptions m ↔ m = true) := by
  have hopts : ∀ m : Bool, "--headless" ∈ chromeOptions m ↔ m = true := by decide
  rcases runMain_fetches_cases b with hf | hf
  · rw [hf]
    refine ⟨rfl, rfl, ?_, hopts⟩
    intro t ht
    exact absurd ht (List.not_mem_nil t)
  · rw [hf]
    refine ⟨rfl, ?_, snd_subFetchTasks (sub_sitemaps b), hopts⟩
    rw [List.countP_cons, countP_visible_subFetchTasks]
    rfl

/-- C6: for every URL discovered in the sitemap index — repeated entries
counted separately — exactly one headless fetch task is issued by the worker
pool. -/
theorem c6_one_fetch_per_entry (b : Browser)
    (ht : truthy (index_page_content b) = true) (hne : sub_sitemaps b ≠ []) :
    (runMain b).fetches.tail = subFetchTasks (sub_sitemaps b) ∧
    headlessFetchUrls (runMain b) = sub_sitemaps b ∧
    ∀ u, (headlessFetchUrls (runMain b)).count u = (sub_sitemaps b).count u := by
  refine ⟨?_, runMain_headless_fetches b, fun u => by rw [runMain_headless_fetches]⟩
  unfold runMain
  rw [if_neg (by rw [ht]; decide), if_neg (fun hh => hne (List.isEmpty_iff.mp hh))]
  rfl

theorem c6_witness :
    (truthy (index_page_content okBrowser) = true ∧ sub_sitemaps okBrowser ≠ []) ∧
    ((runMain okBrowser).fetches.tail = subFetchTasks (sub_sitemaps okBrowser) ∧
      headlessFetchUrls (runMain okBrowser) = sub_sitemaps okBrowser ∧
      ∀ u, (headlessFetchUrls (runMain okBrowser)).count u =
        (sub_sitemaps okBrowser).count u) :=
  ⟨⟨by decide, by decide⟩, c6_one_fetch_per_entry okBrowser (by decide) (by decide)⟩

/-- C7: the pool is fixed-size: in any execution of the worker pool with
`MAX_WORKERS` workers, at no reachable state are more than `MAX_WORKERS` (= 8)
sub-sitemap fetches running at once, however many URLs were discovered. -/
theorem c7_pool_bounded (subs : List String) (s : PoolState)
    (h : PoolReachable MAX_WORKERS (initPool subs) s) :
    s.running.length ≤ MAX_WORKERS ∧ MAX_WORKERS = 8 := by
  refine ⟨?_, rfl⟩
  induction h with
  | refl => exact Nat.zero_le _
  | step hr hs ih =>
    cases hs with
    | start u p₁ p₂ run fin hlt => exact hlt
    | finish u pend r₁ r₂ fin =>
      refine le_trans ?_ ih
      simp only [List.length_append, List.length_cons]
      omega

theorem c7_witness :
    PoolReachable MAX_WORKERS (initPool ["https://o/s1.xml"]) (initPool ["https://o/s1.xml"]) ∧
    ((initPool ["https://o/s1.xml"]).running.length ≤ MAX_WORKERS ∧ MAX_WORKERS = 8) :=
  ⟨PoolReachable.refl, c7_pool_bounded _ _ PoolReachable.refl⟩

/-- C8: if the index fetch returns no content, or the retrieved index has no
`<loc>` tags, the program exits before submitting any sub-sitemap fetch and
the output file is never created or written. -/
theorem c8_early_exit (b : Browser)
    (h : truthy (index_page_content b) = false ∨ sub_sitemaps b = []) :
    (runMain b).written = none ∧ (runMain b).fetches = [(SITEMAP_INDEX_URL, false)] := by
  unfold runMain
  rcases h with h | h
  · rw [if_pos (by rw [h]; rfl)]
    exact ⟨rfl, rfl⟩
  · cases htv : truthy (index_page_content b) with
    | false =>
      rw [if_pos (show (!false) = true from rfl)]
      exact ⟨rfl, rfl⟩
    | true =>
      rw [if_neg (show ¬((!true) = true) by decide),
        if_pos (show (sub_sitemaps b).isEmpty = true by rw [h]; rfl)]
      exact ⟨rfl, rfl⟩

theorem c8_witness :
    (truthy (index_page_content failBrowser) = false ∨ sub_sitemaps failBrowser = []) ∧
    ((runMain failBrowser).written = none ∧
      (runMain failBrowser).fetches = [(SITEMAP_INDEX_URL, false)]) :=
  ⟨by decide, c8_early_exit failBrowser (by decide)⟩

/-- C9: the output file is independent of the completion order of the
concurrent fetches: for any two completion orders of the same per-task
results, the written lines — and hence the file text, byte for byte — are
identical. -/
theorem c9_order_independent (results₁ results₂ : List (List String))
    (h : List.Perm results₁ results₂) :
    sortedUrls results₁ = sortedUrls results₂ ∧
    outputText (sortedUrls results₁) = outputText (sortedUrls results₂) := by
  have hmem : ∀ y, y ∈ accumulate results₁ ↔ y ∈ accumulate results₂ := by
    intro y
    rw [mem_accumulate, mem_accumulate]
    constructor
    · rintro ⟨l, hl, hy⟩
      exact ⟨l, h.mem_iff.mp hl, hy⟩
    · rintro ⟨l, hl, hy⟩
      exact ⟨l, h.mem_iff.mpr hl, hy⟩
  have hperm : List.Perm (accumulate results₁) (accumulate results₂) :=
    (List.perm_ext_iff_of_nodup (nodup_accumulate _) (nodup_accumulate _)).mpr hmem
  have hsorted : sortedUrls results₁ = sortedUrls results₂ := by
    haveI := urlLe_isAntisymm
    exact List.eq_of_perm_of_sorted
      ((sortedUrls_perm results₁).trans (hperm.trans (sortedUrls_perm results₂).symm))
      (sortedUrls_sorted results₁) (sortedUrls_sorted results₂)
  exact ⟨hsorted, by rw [hsorted]⟩

theorem c9_witness :
    List.Perm [["b"], ["a"]] [["a"], ["b"]] ∧
    (sortedUrls [["b"], ["a"]] = sortedUrls [["a"], ["b"]] ∧
      outputText (sortedUrls [["b"], ["a"]]) = outputText (sortedUrls [["a"], ["b"]])) :=
  ⟨List.Perm.swap _ _ _, c9_order_independent _ _ (List.Perm.swap _ _ _)⟩

/-- C10: falsy page content — `None` from a failed fetch, or the empty
string — parses to the empty list without the `<loc>` scanner being reached;
the parse function is total, so no input makes it raise. -/
theorem c10_falsy_empty (pc : Option String) (h : truthy pc = false) :
    parse_urls_from_sitemap_content pc = [] :=
  parse_falsy pc h

theorem c10_witness :
    (truthy none = false ∧ parse_urls_from_sitemap_content none = []) ∧
    (truthy (some "") = false ∧ parse_urls_from_sitemap_content (some "") = []) :=
  ⟨⟨rfl, c10_falsy_empty none rfl⟩, ⟨rfl, c10_falsy_empty (some "") rfl⟩⟩

end Octopart
